import Mathlib

/-!
Verification of the range-request serving path of `server.py`
(class `MyHTTPRequestHandler`: `end_headers`, `do_GET`) and the
surrounding string plumbing, shallowly embedded in Lean.

Python strings are embedded as `List Char`, file contents as `List Nat`
(byte values), and the filesystem as a partial map from relative path to
content.  Python's `int()` is embedded without its underscore-separator
and non-ASCII-digit features, which no request in scope exercises.
-/

namespace Server

/-- Numeric value of an ASCII decimal digit character, `none` otherwise. -/
def digitVal (c : Char) : Option Nat :=
  if '0' ≤ c ∧ c ≤ '9' then some (c.toNat - '0'.toNat) else none

/-- The ASCII character of a decimal digit. -/
def digitChar (d : Nat) : Char := Char.ofNat ('0'.toNat + d)

/-- Decimal digit characters of `m`, most significant first; `[]` for `0`.
`fuel ≥ m` makes the recursion structural; see `natReprGo_fuel`. -/
def natReprGo : Nat → Nat → List Char
  | _, 0 => []
  | 0, _ + 1 => []
  | fuel + 1, m + 1 => natReprGo fuel ((m + 1) / 10) ++ [digitChar ((m + 1) % 10)]

/-- Decimal representation of a natural number, as Python `str` renders it. -/
def natRepr (n : Nat) : List Char := if n = 0 then ['0'] else natReprGo n n

/-- Decimal representation of an integer, as Python `str` renders it. -/
def intRepr : Int → List Char
  | Int.ofNat n => natRepr n
  | Int.negSucc n => '-' :: natRepr (n + 1)

/-- Fold decimal digits onto an accumulator; `none` on a non-digit. -/
def parseDigitsAux (acc : Nat) : List Char → Option Nat
  | [] => some acc
  | c :: cs =>
    match digitVal c with
    | some d => parseDigitsAux (acc * 10 + d) cs
    | none => none

/-- Parse a non-empty all-digit string. -/
def parseDigits : List Char → Option Nat
  | [] => none
  | c :: cs => parseDigitsAux 0 (c :: cs)

/-- Remove leading and trailing whitespace, as `str.strip()` does. -/
def stripWS (s : List Char) : List Char :=
  ((s.dropWhile Char.isWhitespace).reverse.dropWhile Char.isWhitespace).reverse

/-- Embedding of Python `int(s)`: optional surrounding whitespace, optional
sign, then decimal digits.  (Underscore separators and non-ASCII digits,
which Python also accepts, are not modelled.) -/
def pyInt (s : List Char) : Option Int :=
  let t := stripWS s
  if t = [] then none
  else if t.headD ' ' = '+' then (parseDigits (t.drop 1)).map Int.ofNat
  else if t.headD ' ' = '-' then (parseDigits (t.drop 1)).map (fun n => -(n : Int))
  else (parseDigits t).map Int.ofNat

/-- Embedding of Python `s.split(sep)` for a one-character separator. -/
def pySplit (sep : Char) : List Char → List (List Char)
  | [] => [[]]
  | c :: cs =>
    if c = sep then [] :: pySplit sep cs
    else
      match pySplit sep cs with
      | [] => [[c]]
      | r :: rs => (c :: r) :: rs

/-- Embedding of Python `pat in s` for strings. -/
def pyIn (pat : List Char) : List Char → Bool
  | [] => pat.isEmpty
  | c :: cs => pat.isPrefixOf (c :: cs) || pyIn pat cs

/-- Worker for `pyReplace`; `fuel ≥ s.length` makes the recursion
structural; see `pyReplaceGo_fuel`. -/
def pyReplaceGo (pat repl : List Char) : Nat → List Char → List Char
  | _, [] => []
  | 0, s => s
  | fuel + 1, c :: cs =>
    if pat ≠ [] ∧ pat.isPrefixOf (c :: cs) then
      repl ++ pyReplaceGo pat repl fuel (List.drop pat.length (c :: cs))
    else
      c :: pyReplaceGo pat repl fuel cs

/-- Embedding of Python `s.replace(pat, repl)` for non-empty `pat`:
replace non-overlapping occurrences left to right. -/
def pyReplace (pat repl : List Char) (s : List Char) : List Char :=
  pyReplaceGo pat repl s.length s

/-- Embedding of Python `s.lstrip(sep)` for the single character `'/'`:
remove all leading `'/'` characters (server.py line 31). -/
def pyLstrip (s : List Char) : List Char := s.dropWhile (· = '/')

/-- Embedding of Python `f.read(n)` on the remaining bytes `rest`:
a negative argument reads everything left, otherwise at most `n` bytes. -/
def pyRead (n : Int) (rest : List Nat) : List Nat :=
  if n < 0 then rest else rest.take n.toNat

/-- An incoming GET request: `self.path` and the value of
`self.headers.get('Range')` (`none` when the header is absent). -/
structure Request where
  path : List Char
  rangeHeader : Option (List Char)
deriving Repr, DecidableEq

/-- A response as assembled before `end_headers` runs (what
`SimpleHTTPRequestHandler.do_GET` would produce for a non-audio path). -/
structure BaseResponse where
  status : Nat
  reason : List Char
  headers : List (List Char × List Char)
  body : List Nat
deriving Repr, DecidableEq

/-- A finished response: status line, headers as sent, body bytes. -/
structure Response where
  status : Nat
  reason : List Char
  headers : List (List Char × List Char)
  body : List Nat
deriving Repr, DecidableEq

/-- The audio extensions special-cased by the handler (server.py lines 21, 29). -/
def audioExts : List (List Char) := [".mp3".toList, ".wav".toList, ".ogg".toList]

/-- `self.path.endswith(('.mp3', '.wav', '.ogg'))`. -/
def isAudioPath (p : List Char) : Bool := audioExts.any (fun e => e.isSuffixOf p)

/-- `'audio/mpeg' if self.path.endswith('.mp3') else 'audio/wav'`
(server.py lines 23, 55, 69). -/
def contentTypeFor (p : List Char) : List Char :=
  if ".mp3".toList.isSuffixOf p then "audio/mpeg".toList else "audio/wav".toList

/-- Embedding of the overridden `end_headers` (server.py lines 14-25):
the headers accumulated so far, then the three CORS headers, then — when
the path has an audio extension — `Accept-Ranges` and a content type. -/
def end_headers (p : List Char) (hs : List (List Char × List Char)) :
    List (List Char × List Char) :=
  hs ++
    [("Access-Control-Allow-Origin".toList, "*".toList),
     ("Access-Control-Allow-Methods".toList, "GET, OPTIONS".toList),
     ("Access-Control-Allow-Headers".toList, "*".toList)] ++
    (if isAudioPath p then
      [("Accept-Ranges".toList, "bytes".toList),
       ("Content-Type".toList, contentTypeFor p)]
    else [])

/-- Embedding of `BaseHTTPRequestHandler.send_error(code, message)` as the
handler uses it: the error status with `message` (or the default reason) on
the status line, the stock error headers, and the CORS headers appended by
the overridden `end_headers`.  The stdlib HTML explanation body and its
`Content-Length` header are not modelled; no property in scope reads them. -/
def send_error (p : List Char) (code : Nat) (reason : List Char) : Response :=
  { status := code
    reason := reason
    headers := end_headers p
      [("Connection".toList, "close".toList),
       ("Content-Type".toList, "text/html;charset=utf-8".toList)]
    body := [] }

/-- `str(e)` of the `ValueError` that `int(s)` raises on a bad literal. -/
def intErrMsg (s : List Char) : List Char :=
  "invalid literal for int() with base 10: '".toList ++ s ++ "'".toList

/-- `str(e)` of the `IndexError` raised by `ranges[1]` on a short list. -/
def indexErrMsg : List Char := "list index out of range".toList

/-- `str(e)` of the `OSError` raised by `f.seek` on a negative offset. -/
def seekErrMsg : List Char := "[Errno 22] Invalid argument".toList

/-- One bound of the range header: `if ranges[i]: byte_x = int(ranges[i])`.
An empty piece keeps the default; `int` either yields a value or raises. -/
def parseBound (piece : List Char) (dflt : Int) : Except (List Char) Int :=
  if piece = [] then .ok dflt
  else
    match pyInt piece with
    | some v => .ok v
    | none => .error (intErrMsg piece)

/-- Embedding of the range-header parsing, server.py lines 42-51:
defaults `byte_start = 0`, `byte_end = file_size - 1`; when `'bytes='`
occurs in the header, strip it, split on `'-'`, and parse whichever of the
two pieces is non-empty.  `.error` carries the text of the exception the
Python code would raise (`ValueError` from `int`, or `IndexError` from
`ranges[1]` when the split yields fewer than two pieces). -/
def parseRangeHeader (h : List Char) (fileSize : Nat) :
    Except (List Char) (Int × Int) :=
  if pyIn "bytes=".toList h then
    let rs := pySplit '-' (pyReplace "bytes=".toList [] h)
    match parseBound (rs.headD []) 0 with
    | .error m => .error m
    | .ok s =>
      match rs[1]? with
      | none => .error indexErrMsg
      | some r1 =>
        match parseBound r1 ((fileSize : Int) - 1) with
        | .error m => .error m
        | .ok e => .ok (s, e)
  else
    .ok (0, (fileSize : Int) - 1)

/-- Embedding of `MyHTTPRequestHandler.do_GET` (server.py lines 27-82).
`fs` maps a relative filesystem path to the file's bytes (`none` = absent);
`fallback` stands for `super().do_GET()`, whose accumulated headers pass
through the overridden `end_headers` when flushed.  The `s < 0` branch
embeds the `OSError` that `f.seek` would raise; it is unreachable because
split pieces contain no `'-'` (see `parseRangeHeader_start_nonneg`). -/
def do_GET (fs : List Char → Option (List Nat))
    (fallback : Request → BaseResponse) (req : Request) : Response :=
  if isAudioPath req.path then
    let filepath := pyLstrip req.path
    match fs filepath with
    | none => send_error req.path 404 "Not Found".toList
    | some content =>
      let fileSize := content.length
      match req.rangeHeader with
      | some h =>
        if h = [] then
          -- `if range_header:` is false for an empty header value
          { status := 200
            reason := "OK".toList
            headers := end_headers req.path
              [("Content-Type".toList, contentTypeFor req.path),
               ("Content-Length".toList, natRepr fileSize),
               ("Accept-Ranges".toList, "bytes".toList)]
            body := content }
        else
          match parseRangeHeader h fileSize with
          | .error m => send_error req.path 500 m
          | .ok (s, e) =>
            if s < 0 then send_error req.path 500 seekErrMsg
            else
              { status := 206
                reason := "Partial Content".toList
                headers := end_headers req.path
                  [("Content-Type".toList, contentTypeFor req.path),
                   ("Content-Length".toList, intRepr (e - s + 1)),
                   ("Content-Range".toList,
                     "bytes ".toList ++ intRepr s ++ "-".toList ++ intRepr e
                       ++ "/".toList ++ natRepr fileSize),
                   ("Accept-Ranges".toList, "bytes".toList)]
                body := pyRead (e - s + 1) (content.drop s.toNat) }
      | none =>
        { status := 200
          reason := "OK".toList
          headers := end_headers req.path
            [("Content-Type".toList, contentTypeFor req.path),
             ("Content-Length".toList, natRepr fileSize),
             ("Accept-Ranges".toList, "bytes".toList)]
          body := content }
  else
    let b := fallback req
    { status := b.status
      reason := b.reason
      headers := end_headers req.path b.headers
      body := b.body }

/-- A one-file sample filesystem: `a.mp3` holding ten zero bytes. -/
def sampleFs (p : List Char) : Option (List Nat) :=
  if p = "a.mp3".toList then some (List.replicate 10 0) else none

/-- A trivial stand-in for `super().do_GET()`, used at concrete inputs. -/
def noFallback : Request → BaseResponse :=
  fun _ => { status := 501, reason := [], headers := [], body := [] }

/-! ### Decimal printing and parsing round-trip -/

theorem digitVal_digitChar : ∀ d, d < 10 → digitVal (digitChar d) = some d := by
  decide

theorem digitChar_props : ∀ d, d < 10 →
    (digitChar d).isWhitespace = false ∧ digitChar d ≠ '+' ∧
      digitChar d ≠ '-' ∧ digitChar d ≠ 'b' := by
  decide

theorem mem_natReprGo (fuel : Nat) :
    ∀ n, ∀ c ∈ natReprGo fuel n, ∃ d, d < 10 ∧ c = digitChar d := by
  induction fuel with
  | zero =>
    intro n c hc
    cases n <;> simp [natReprGo] at hc
  | succ f ih =>
    intro n c hc
    cases n with
    | zero => simp [natReprGo] at hc
    | succ m =>
      rw [natReprGo] at hc
      rcases List.mem_append.mp hc with h | h
      · exact ih _ c h
      · rcases List.mem_singleton.mp h with rfl
        exact ⟨(m + 1) % 10, Nat.mod_lt _ (by omega), rfl⟩

theorem mem_natRepr (n : Nat) :
    ∀ c ∈ natRepr n, ∃ d, d < 10 ∧ c = digitChar d := by
  unfold natRepr
  split
  · intro c hc
    rcases List.mem_singleton.mp hc with rfl
    exact ⟨0, by omega, by decide⟩
  · exact mem_natReprGo n n

theorem natReprGo_ne_nil (fuel n : Nat) (h : 0 < n) (hf : n ≤ fuel) :
    natReprGo fuel n ≠ [] := by
  cases n with
  | zero => omega
  | succ m =>
    cases fuel with
    | zero => omega
    | succ f => rw [natReprGo]; simp

theorem natRepr_ne_nil (n : Nat) : natRepr n ≠ [] := by
  unfold natRepr
  split
  · simp
  · rename_i h
    exact natReprGo_ne_nil n n (Nat.pos_of_ne_zero h) le_rfl

theorem parseDigitsAux_append (acc : Nat) (xs ys : List Char) :
    parseDigitsAux acc (xs ++ ys) =
      (parseDigitsAux acc xs).bind (fun a => parseDigitsAux a ys) := by
  induction xs generalizing acc with
  | nil => simp [parseDigitsAux]
  | cons c cs ih =>
    rcases h : digitVal c with _ | d <;>
      simp [parseDigitsAux, h, ih]

theorem parseDigitsAux_natReprGo (fuel : Nat) : ∀ n, n ≤ fuel → ∀ acc,
    parseDigitsAux acc (natReprGo fuel n) =
      some (acc * 10 ^ (natReprGo fuel n).length + n) := by
  induction fuel with
  | zero =>
    intro n hn acc
    obtain rfl : n = 0 := Nat.le_zero.mp hn
    simp [natReprGo, parseDigitsAux]
  | succ f ih =>
    intro n hn acc
    cases n with
    | zero => simp [natReprGo, parseDigitsAux]
    | succ m =>
      have hdiv : (m + 1) / 10 < m + 1 := Nat.div_lt_self (Nat.succ_pos m) (by omega)
      have hq := ih ((m + 1) / 10) (by omega)
      have hd : digitVal (digitChar ((m + 1) % 10)) = some ((m + 1) % 10) :=
        digitVal_digitChar _ (Nat.mod_lt _ (by omega))
      have hqr : (m + 1) / 10 * 10 + (m + 1) % 10 = m + 1 := by omega
      rw [natReprGo, parseDigitsAux_append, hq]
      simp only [Option.bind_some, Option.some_bind, parseDigitsAux, hd,
        List.length_append, List.length_singleton, pow_succ]
      congr 1
      have : (acc * 10 ^ (natReprGo f ((m + 1) / 10)).length + (m + 1) / 10) * 10
            + (m + 1) % 10
          = acc * (10 ^ (natReprGo f ((m + 1) / 10)).length * 10)
            + ((m + 1) / 10 * 10 + (m + 1) % 10) := by ring
      rw [this, hqr]

theorem parseDigits_natRepr (n : Nat) : parseDigits (natRepr n) = some n := by
  by_cases h : n = 0
  · subst h; decide
  · unfold natRepr
    rw [if_neg h]
    cases hh : natReprGo n n with
    | nil => exact absurd hh (natReprGo_ne_nil n n (Nat.pos_of_ne_zero h) le_rfl)
    | cons c cs =>
      show parseDigitsAux 0 (c :: cs) = some n
      rw [← hh, parseDigitsAux_natReprGo n n le_rfl]
      simp

/-! ### Whitespace stripping and `int()` -/

theorem dropWhile_eq_self_of (p : Char → Bool) (s : List Char)
    (h : ∀ c ∈ s, p c = false) : s.dropWhile p = s := by
  cases s with
  | nil => rfl
  | cons c cs => simp [List.dropWhile_cons, h c (List.mem_cons_self c cs)]

theorem stripWS_eq_self (s : List Char) (h : ∀ c ∈ s, c.isWhitespace = false) :
    stripWS s = s := by
  unfold stripWS
  rw [dropWhile_eq_self_of _ _ h,
    dropWhile_eq_self_of _ _ (fun c hc => h c (List.mem_reverse.mp hc)),
    List.reverse_reverse]

theorem mem_stripWS (s : List Char) (c : Char) (h : c ∈ stripWS s) : c ∈ s := by
  unfold stripWS at h
  rw [List.mem_reverse] at h
  have h1 := List.Sublist.mem h (List.dropWhile_sublist _)
  rw [List.mem_reverse] at h1
  exact List.Sublist.mem h1 (List.dropWhile_sublist _)

theorem pyInt_natRepr (n : Nat) : pyInt (natRepr n) = some (n : Int) := by
  have hmem := mem_natRepr n
  have hs : stripWS (natRepr n) = natRepr n := stripWS_eq_self _ (by
    intro c hc
    obtain ⟨d, hd, rfl⟩ := hmem c hc
    exact (digitChar_props d hd).1)
  unfold pyInt
  rw [hs]
  cases hh : natRepr n with
  | nil => exact absurd hh (natRepr_ne_nil n)
  | cons c cs =>
    obtain ⟨d, hd, rfl⟩ := hmem c (by rw [hh]; exact List.mem_cons_self _ _)
    simp only [List.headD_cons, if_neg (List.cons_ne_nil _ _),
      if_neg (digitChar_props d hd).2.1,
      if_neg (digitChar_props d hd).2.2.1]
    rw [show (digitChar d :: cs) = natRepr n from hh.symm, parseDigits_natRepr]
    rfl

theorem pyInt_nonneg (s : List Char) (v : Int) (hm : '-' ∉ s)
    (hv : pyInt s = some v) : 0 ≤ v := by
  simp only [pyInt] at hv
  cases hst : stripWS s with
  | nil => rw [hst] at hv; simp at hv
  | cons c cs =>
    rw [hst] at hv
    have hcne : c ≠ '-' := by
      rintro rfl
      exact hm (mem_stripWS s '-' (by rw [hst]; exact List.mem_cons_self _ _))
    rw [if_neg (List.cons_ne_nil _ _)] at hv
    simp only [List.headD_cons] at hv
    by_cases hcp : c = '+'
    · rw [if_pos hcp] at hv
      obtain ⟨m, -, rfl⟩ := Option.map_eq_some'.mp hv
      exact Int.ofNat_nonneg m
    · rw [if_neg hcp, if_neg hcne] at hv
      obtain ⟨m, -, rfl⟩ := Option.map_eq_some'.mp hv
      exact Int.ofNat_nonneg m

/-! ### `split`, `in`, `replace` -/

theorem pySplit_ne_nil (sep : Char) (s : List Char) : pySplit sep s ≠ [] := by
  cases s with
  | nil => simp [pySplit]
  | cons c cs =>
    rw [pySplit]
    split
    · simp
    · split <;> simp

theorem pySplit_of_not_mem (sep : Char) (s : List Char) (h : sep ∉ s) :
    pySplit sep s = [s] := by
  induction s with
  | nil => rfl
  | cons c cs ih =>
    rw [pySplit, if_neg (fun hc => h (by rw [← hc]; exact List.mem_cons_self c cs)),
      ih (fun hc => h (List.mem_cons_of_mem c hc))]

theorem pySplit_append (sep : Char) (a b : List Char) (h : sep ∉ a) :
    pySplit sep (a ++ sep :: b) = a :: pySplit sep b := by
  induction a with
  | nil => simp [pySplit]
  | cons c cs ih =>
    rw [List.cons_append, pySplit,
      if_neg (fun hc => h (by rw [← hc]; exact List.mem_cons_self c cs)),
      ih (fun hc => h (List.mem_cons_of_mem c hc))]

theorem pySplit_pieces (sep : Char) (s : List Char) :
    ∀ piece ∈ pySplit sep s, sep ∉ piece := by
  induction s with
  | nil => simp [pySplit]
  | cons c cs ih =>
    rw [pySplit]
    by_cases hc : c = sep
    · rw [if_pos hc]
      intro piece hp
      rcases List.mem_cons.mp hp with rfl | hp
      · simp
      · exact ih piece hp
    · rw [if_neg hc]
      cases hps : pySplit sep cs with
      | nil => exact absurd hps (pySplit_ne_nil sep cs)
      | cons r rs =>
        intro piece hp
        rcases List.mem_cons.mp hp with rfl | hp
        · intro hmm
          rcases List.mem_cons.mp hmm with rfl | hmm
          · exact hc rfl
          · exact ih r (hps ▸ List.mem_cons_self r rs) hmm
        · exact ih piece (hps ▸ List.mem_cons_of_mem r hp)

theorem pyIn_of_isPrefix (pat s : List Char) (hne : pat ≠ [])
    (hp : pat.isPrefixOf s = true) : pyIn pat s = true := by
  cases s with
  | nil =>
    rw [List.isPrefixOf_iff_prefix] at hp
    exact absurd (List.prefix_nil.mp hp) hne
  | cons c cs => simp [pyIn, hp]

theorem pyReplaceGo_fuel (pat repl : List Char) :
    ∀ n s f g, s.length ≤ n → s.length ≤ f → s.length ≤ g →
      pyReplaceGo pat repl f s = pyReplaceGo pat repl g s := by
  intro n
  induction n with
  | zero =>
    intro s f g h1 _ _
    obtain rfl : s = [] := List.length_eq_zero.mp (Nat.le_zero.mp h1)
    cases f <;> cases g <;> rfl
  | succ n ih =>
    intro s f g h1 hf hg
    cases s with
    | nil => cases f <;> cases g <;> rfl
    | cons c cs =>
      simp only [List.length_cons] at h1 hf hg
      cases f with
      | zero => omega
      | succ f2 =>
        cases g with
        | zero => omega
        | succ g2 =>
          simp only [pyReplaceGo]
          by_cases hcond : pat ≠ [] ∧ pat.isPrefixOf (c :: cs) = true
          · have hp : 0 < pat.length := List.length_pos.mpr hcond.1
            have hdl : (List.drop pat.length (c :: cs)).length ≤ n := by
              simp only [List.length_drop, List.length_cons]; omega
            have hdf : (List.drop pat.length (c :: cs)).length ≤ f2 := by
              simp only [List.length_drop, List.length_cons]; omega
            have hdg : (List.drop pat.length (c :: cs)).length ≤ g2 := by
              simp only [List.length_drop, List.length_cons]; omega
            rw [if_pos hcond, if_pos hcond, ih _ f2 g2 hdl hdf hdg]
          · rw [if_neg hcond, if_neg hcond,
              ih cs f2 g2 (by omega) (by omega) (by omega)]

theorem pyReplaceGo_no_head (p : Char) (ps repl : List Char) :
    ∀ f s, (∀ c ∈ s, c ≠ p) → pyReplaceGo (p :: ps) repl f s = s := by
  intro f
  induction f with
  | zero => intro s h; cases s <;> rfl
  | succ f ih =>
    intro s h
    cases s with
    | nil => rfl
    | cons c cs =>
      have hcond : ¬((p :: ps) ≠ [] ∧ (p :: ps).isPrefixOf (c :: cs) = true) := by
        rintro ⟨-, hp⟩
        rw [List.isPrefixOf_iff_prefix] at hp
        obtain ⟨t, ht⟩ := hp
        rw [List.cons_append] at ht
        exact h c (List.mem_cons_self c cs) (List.head_eq_of_cons_eq ht).symm
      rw [pyReplaceGo, if_neg hcond,
        ih cs (fun x hx => h x (List.mem_cons_of_mem _ hx))]

theorem pyReplace_no_head (p : Char) (ps repl s : List Char)
    (h : ∀ c ∈ s, c ≠ p) : pyReplace (p :: ps) repl s = s :=
  pyReplaceGo_no_head p ps repl s.length s h

theorem pyReplace_eats_pat (pat rest : List Char) (hne : pat ≠ []) :
    pyReplace pat [] (pat ++ rest) = pyReplace pat [] rest := by
  cases pat with
  | nil => exact absurd rfl hne
  | cons p ps =>
    unfold pyReplace
    have hp : (p :: ps).isPrefixOf ((p :: ps) ++ rest) = true :=
      List.isPrefixOf_iff_prefix.mpr (List.prefix_append _ _)
    rw [show (p :: ps) ++ rest = p :: (ps ++ rest) from rfl] at hp ⊢
    rw [show (p :: (ps ++ rest)).length = (ps ++ rest).length + 1 from rfl,
      pyReplaceGo, if_pos ⟨hne, hp⟩, List.nil_append,
      show p :: (ps ++ rest) = (p :: ps) ++ rest from rfl, List.drop_left]
    exact pyReplaceGo_fuel _ _ (ps ++ rest).length rest _ _
      (by simp) (by simp) le_rfl

/-! ### Range-header parsing facts -/

theorem natRepr_no_minus (n : Nat) : '-' ∉ natRepr n := by
  intro hc
  obtain ⟨d, hd, he⟩ := mem_natRepr n '-' hc
  exact (digitChar_props d hd).2.2.1 he.symm

theorem headD_mem (l : List (List Char)) (hl : l ≠ []) : l.headD [] ∈ l := by
  cases l with
  | nil => exact absurd rfl hl
  | cons a as => exact List.mem_cons_self a as

theorem parseBound_ok_nonneg (piece : List Char) (dflt v : Int)
    (hm : '-' ∉ piece) (hd : 0 ≤ dflt)
    (hok : parseBound piece dflt = Except.ok v) : 0 ≤ v := by
  unfold parseBound at hok
  by_cases hp : piece = []
  · rw [if_pos hp] at hok
    cases hok
    exact hd
  · rw [if_neg hp] at hok
    cases hpi : pyInt piece with
    | none => rw [hpi] at hok; cases hok
    | some w =>
      rw [hpi] at hok
      cases hok
      exact pyInt_nonneg piece v hm hpi

theorem parseBound_natRepr (n : Nat) (dflt : Int) :
    parseBound (natRepr n) dflt = Except.ok (n : Int) := by
  unfold parseBound
  rw [if_neg (natRepr_ne_nil n), pyInt_natRepr]

theorem parseRangeHeader_ok_start_nonneg (h : List Char) (size : Nat)
    (s e : Int) (hok : parseRangeHeader h size = Except.ok (s, e)) : 0 ≤ s := by
  simp only [parseRangeHeader] at hok
  by_cases hin : pyIn "bytes=".toList h = true
  · rw [if_pos hin] at hok
    split at hok
    · cases hok
    rename_i s0 hps
    have hs0 : 0 ≤ s0 := by
      refine parseBound_ok_nonneg _ 0 s0 ?_ le_rfl hps
      exact pySplit_pieces '-' _ _ (headD_mem _ (pySplit_ne_nil '-' _))
    split at hok
    · cases hok
    rename_i r1 h1
    split at hok
    · cases hok
    rename_i e0 hb
    cases hok
    exact hs0
  · rw [if_neg hin] at hok
    cases hok
    exact le_rfl

theorem parseRangeHeader_no_bytes (h : List Char) (size : Nat)
    (hin : pyIn "bytes=".toList h = false) :
    parseRangeHeader h size = Except.ok (0, (size : Int) - 1) := by
  unfold parseRangeHeader
  rw [hin]
  simp

theorem parseRangeHeader_canonical (s e size : Nat) :
    parseRangeHeader ("bytes=".toList ++ natRepr s ++ "-".toList ++ natRepr e)
      size = Except.ok ((s : Int), (e : Int)) := by
  have hgroup : "bytes=".toList ++ natRepr s ++ "-".toList ++ natRepr e
      = "bytes=".toList ++ (natRepr s ++ '-' :: natRepr e) := by
    rw [List.append_assoc, List.append_assoc,
      show ("-".toList : List Char) = ['-'] from rfl, List.singleton_append]
  rw [hgroup]
  have hin : pyIn "bytes=".toList
      ("bytes=".toList ++ (natRepr s ++ '-' :: natRepr e)) = true :=
    pyIn_of_isPrefix _ _ (by decide)
      (List.isPrefixOf_iff_prefix.mpr (List.prefix_append _ _))
  have hrepl : pyReplace "bytes=".toList []
      ("bytes=".toList ++ (natRepr s ++ '-' :: natRepr e))
      = natRepr s ++ '-' :: natRepr e := by
    rw [pyReplace_eats_pat _ _ (by decide),
      show ("bytes=".toList : List Char) = 'b' :: "ytes=".toList from rfl]
    apply pyReplace_no_head
    intro c hc
    rcases List.mem_append.mp hc with hc | hc
    · obtain ⟨d, hd, rfl⟩ := mem_natRepr s c hc
      exact (digitChar_props d hd).2.2.2
    · rcases List.mem_cons.mp hc with rfl | hc
      · decide
      · obtain ⟨d, hd, rfl⟩ := mem_natRepr e c hc
        exact (digitChar_props d hd).2.2.2
  have hsplit : pySplit '-' (natRepr s ++ '-' :: natRepr e)
      = [natRepr s, natRepr e] := by
    rw [pySplit_append _ _ _ (natRepr_no_minus s),
      pySplit_of_not_mem _ _ (natRepr_no_minus e)]
  simp only [parseRangeHeader, hin, if_true, hrepl, hsplit, List.headD_cons,
    parseBound_natRepr, List.getElem?_cons_succ, List.getElem?_cons_zero]

/-! ### `do_GET` scenario lemmas -/

theorem do_GET_range_ok (fs : List Char → Option (List Nat))
    (fb : Request → BaseResponse) (p h : List Char) (content : List Nat)
    (s e : Int)
    (haudio : isAudioPath p = true)
    (hfs : fs (pyLstrip p) = some content)
    (hne : h ≠ [])
    (hok : parseRangeHeader h content.length = Except.ok (s, e)) :
    do_GET fs fb ⟨p, some h⟩ =
      { status := 206
        reason := "Partial Content".toList
        headers := end_headers p
          [("Content-Type".toList, contentTypeFor p),
           ("Content-Length".toList, intRepr (e - s + 1)),
           ("Content-Range".toList,
             "bytes ".toList ++ intRepr s ++ "-".toList ++ intRepr e
               ++ "/".toList ++ natRepr content.length),
           ("Accept-Ranges".toList, "bytes".toList)]
        body := pyRead (e - s + 1) (content.drop s.toNat) } := by
  have hs := parseRangeHeader_ok_start_nonneg h content.length s e hok
  simp only [do_GET, haudio, if_true, hfs, hok, if_neg hne,
    if_neg (not_lt.mpr hs)]

theorem do_GET_no_range (fs : List Char → Option (List Nat))
    (fb : Request → BaseResponse) (p : List Char) (content : List Nat)
    (haudio : isAudioPath p = true)
    (hfs : fs (pyLstrip p) = some content) :
    do_GET fs fb ⟨p, none⟩ =
      { status := 200
        reason := "OK".toList
        headers := end_headers p
          [("Content-Type".toList, contentTypeFor p),
           ("Content-Length".toList, natRepr content.length),
           ("Accept-Ranges".toList, "bytes".toList)]
        body := content } := by
  simp only [do_GET, haudio, if_true, hfs]

theorem do_GET_empty_range (fs : List Char → Option (List Nat))
    (fb : Request → BaseResponse) (p : List Char) (content : List Nat)
    (haudio : isAudioPath p = true)
    (hfs : fs (pyLstrip p) = some content) :
    do_GET fs fb ⟨p, some []⟩ =
      { status := 200
        reason := "OK".toList
        headers := end_headers p
          [("Content-Type".toList, contentTypeFor p),
           ("Content-Length".toList, natRepr content.length),
           ("Accept-Ranges".toList, "bytes".toList)]
        body := content } := by
  simp only [do_GET, haudio, if_true, hfs, if_pos rfl]

theorem do_GET_not_found (fs : List Char → Option (List Nat))
    (fb : Request → BaseResponse) (p : List Char) (rng : Option (List Char))
    (haudio : isAudioPath p = true)
    (hfs : fs (pyLstrip p) = none) :
    do_GET fs fb ⟨p, rng⟩ = send_error p 404 "Not Found".toList := by
  simp only [do_GET, haudio, if_true, hfs]

theorem do_GET_parse_error (fs : List Char → Option (List Nat))
    (fb : Request → BaseResponse) (p h m : List Char) (content : List Nat)
    (haudio : isAudioPath p = true)
    (hfs : fs (pyLstrip p) = some content)
    (hne : h ≠ [])
    (herr : parseRangeHeader h content.length = Except.error m) :
    do_GET fs fb ⟨p, some h⟩ = send_error p 500 m := by
  simp only [do_GET, haudio, if_true, hfs, if_neg hne, herr]

theorem do_GET_not_audio (fs : List Char → Option (List Nat))
    (fb : Request → BaseResponse) (req : Request)
    (haudio : isAudioPath req.path = false) :
    do_GET fs fb req =
      { status := (fb req).status
        reason := (fb req).reason
        headers := end_headers req.path (fb req).headers
        body := (fb req).body } := by
  simp only [do_GET, haudio, Bool.false_eq_true, if_false]

theorem mem_end_headers (p : List Char) (hs : List (List Char × List Char))
    (x : List Char × List Char) (hx : x ∈ hs) : x ∈ end_headers p hs := by
  unfold end_headers
  exact List.mem_append_left _ (List.mem_append_left _ hx)

theorem cors_mem_end_headers (p : List Char)
    (hs : List (List Char × List Char)) :
    ("Access-Control-Allow-Origin".toList, "*".toList) ∈ end_headers p hs ∧
    ("Access-Control-Allow-Methods".toList, "GET, OPTIONS".toList)
      ∈ end_headers p hs ∧
    ("Access-Control-Allow-Headers".toList, "*".toList) ∈ end_headers p hs := by
  unfold end_headers
  refine ⟨?_, ?_, ?_⟩ <;>
    exact List.mem_append_left _ (List.mem_append_right _ (by simp))

theorem do_GET_headers_shape (fs : List Char → Option (List Nat))
    (fb : Request → BaseResponse) (req : Request) :
    ∃ hs, (do_GET fs fb req).headers = end_headers req.path hs := by
  unfold do_GET send_error
  dsimp only
  repeat' split
  all_goals exact ⟨_, rfl⟩

/-- A second sample filesystem agreeing with `sampleFs` on `a.mp3` only. -/
def sampleFsB (p : List Char) : Option (List Nat) :=
  if p = "a.mp3".toList then some (List.replicate 10 0) else some [7]

/-! ### Claims -/

/-- C1: for every file on disk and every range whose bounds satisfy
`start ≤ end < total_size`, a GET for an audio path carrying
`Range: bytes=start-end` yields status 206, a body of exactly
`end-start+1` bytes equal to bytes `start..end` (inclusive) of the file,
and the header `Content-Range: bytes start-end/total_size`. -/
theorem C1_valid_range_served (fs : List Char → Option (List Nat))
    (fb : Request → BaseResponse) (p : List Char) (content : List Nat)
    (s e : Nat)
    (haudio : isAudioPath p = true)
    (hfs : fs (pyLstrip p) = some content)
    (hse : s ≤ e) (hesz : e < content.length) :
    ∃ r, do_GET fs fb
        ⟨p, some ("bytes=".toList ++ natRepr s ++ "-".toList ++ natRepr e)⟩ = r ∧
      r.status = 206 ∧
      r.body = (content.drop s).take (e - s + 1) ∧
      r.body.length = e - s + 1 ∧
      ("Content-Range".toList,
        "bytes ".toList ++ natRepr s ++ "-".toList ++ natRepr e
          ++ "/".toList ++ natRepr content.length) ∈ r.headers := by
  have hne : ("bytes=".toList ++ natRepr s ++ "-".toList ++ natRepr e) ≠ [] := by
    simp
  have hok := parseRangeHeader_canonical s e content.length
  refine ⟨_, do_GET_range_ok fs fb p _ content _ _ haudio hfs hne hok,
    rfl, ?_, ?_, ?_⟩
  · show pyRead ((e : Int) - (s : Int) + 1) (content.drop ((s : Int)).toNat)
      = (content.drop s).take (e - s + 1)
    unfold pyRead
    rw [if_neg (by omega), Int.toNat_natCast]
    congr 1
    omega
  · show (pyRead ((e : Int) - (s : Int) + 1)
      (content.drop ((s : Int)).toNat)).length = e - s + 1
    unfold pyRead
    rw [if_neg (by omega), Int.toNat_natCast]
    simp only [List.length_take, List.length_drop]
    omega
  · exact mem_end_headers _ _ _
      (List.mem_cons_of_mem _ (List.mem_cons_of_mem _ (List.mem_cons_self _ _)))

/-- Witness for C1 at `a.mp3` (ten bytes), `Range: bytes=2-5`. -/
theorem C1_valid_range_served_witness :
    ∃ r, do_GET sampleFs noFallback
        ⟨"a.mp3".toList,
          some ("bytes=".toList ++ natRepr 2 ++ "-".toList ++ natRepr 5)⟩ = r ∧
      r.status = 206 ∧
      r.body = ((List.replicate 10 0).drop 2).take (5 - 2 + 1) ∧
      r.body.length = 5 - 2 + 1 ∧
      ("Content-Range".toList,
        "bytes ".toList ++ natRepr 2 ++ "-".toList ++ natRepr 5
          ++ "/".toList ++ natRepr (List.replicate 10 (0 : Nat)).length)
        ∈ r.headers :=
  C1_valid_range_served sampleFs noFallback "a.mp3".toList
    (List.replicate 10 0) 2 5 (by decide) (by decide) (by decide) (by decide)

/-- C2 (amended): every 206 the audio branch produces carries
`Content-Length = end-start+1` and `Content-Range: bytes start-end/total`
for the parsed bounds, and `0 ≤ start`; but the claim's upper conditions
`start ≤ end ≤ total_size-1` are NOT enforced (no validation is performed),
see the counterexample. -/
theorem C2_partial_headers_invariant (fs : List Char → Option (List Nat))
    (fb : Request → BaseResponse) (req : Request)
    (haudio : isAudioPath req.path = true)
    (h206 : (do_GET fs fb req).status = 206) :
    ∃ content h s e,
      fs (pyLstrip req.path) = some content ∧
      req.rangeHeader = some h ∧
      parseRangeHeader h content.length = Except.ok (s, e) ∧
      0 ≤ s ∧
      ("Content-Length".toList, intRepr (e - s + 1))
        ∈ (do_GET fs fb req).headers ∧
      ("Content-Range".toList,
        "bytes ".toList ++ intRepr s ++ "-".toList ++ intRepr e
          ++ "/".toList ++ natRepr content.length)
        ∈ (do_GET fs fb req).headers := by
  obtain ⟨p, rng⟩ := req
  cases hfs : fs (pyLstrip p) with
  | none =>
    rw [do_GET_not_found fs fb p rng haudio hfs] at h206
    cases h206
  | some content =>
    cases rng with
    | none =>
      rw [do_GET_no_range fs fb p content haudio hfs] at h206
      cases h206
    | some h =>
      by_cases hne : h = []
      · subst hne
        rw [do_GET_empty_range fs fb p content haudio hfs] at h206
        cases h206
      · cases hpr : parseRangeHeader h content.length with
        | error m =>
          rw [do_GET_parse_error fs fb p h m content haudio hfs hne hpr] at h206
          cases h206
        | ok se =>
          obtain ⟨s, e⟩ := se
          rw [do_GET_range_ok fs fb p h content s e haudio hfs hne hpr]
          exact ⟨content, h, s, e, rfl, rfl, hpr,
            parseRangeHeader_ok_start_nonneg h content.length s e hpr,
            mem_end_headers _ _ _
              (List.mem_cons_of_mem _ (List.mem_cons_self _ _)),
            mem_end_headers _ _ _
              (List.mem_cons_of_mem _
                (List.mem_cons_of_mem _ (List.mem_cons_self _ _)))⟩

/-- Witness for C2 (amended) at `a.mp3`, `Range: bytes=2-5`. -/
theorem C2_partial_headers_invariant_witness :
    ∃ content h s e,
      sampleFs (pyLstrip ("a.mp3".toList)) = some content ∧
      (Request.mk "a.mp3".toList (some "bytes=2-5".toList)).rangeHeader
        = some h ∧
      parseRangeHeader h content.length = Except.ok (s, e) ∧
      0 ≤ s ∧
      ("Content-Length".toList, intRepr (e - s + 1))
        ∈ (do_GET sampleFs noFallback
            ⟨"a.mp3".toList, some "bytes=2-5".toList⟩).headers ∧
      ("Content-Range".toList,
        "bytes ".toList ++ intRepr s ++ "-".toList ++ intRepr e
          ++ "/".toList ++ natRepr content.length)
        ∈ (do_GET sampleFs noFallback
            ⟨"a.mp3".toList, some "bytes=2-5".toList⟩).headers :=
  C2_partial_headers_invariant sampleFs noFallback
    ⟨"a.mp3".toList, some "bytes=2-5".toList⟩ (by decide) (by decide)

/-- C2 fails as stated: on a 10-byte file, `Range: bytes=5-100` is answered
206 with parsed bounds (5, 100), and 100 exceeds `total_size - 1 = 9`;
the response even advertises `Content-Range: bytes 5-100/10`. -/
theorem C2_counterexample :
    (do_GET sampleFs noFallback
      ⟨"a.mp3".toList, some "bytes=5-100".toList⟩).status = 206 ∧
    parseRangeHeader "bytes=5-100".toList
      (List.replicate 10 (0 : Nat)).length = Except.ok (5, 100) ∧
    ("Content-Range".toList, "bytes 5-100/10".toList)
      ∈ (do_GET sampleFs noFallback
          ⟨"a.mp3".toList, some "bytes=5-100".toList⟩).headers ∧
    ¬((100 : Int) ≤ (List.replicate 10 (0 : Nat)).length - 1) :=
  ⟨by decide, rfl, by decide, by decide⟩

/-- C3: `Range: bytes=-100` (empty left bound) on any existing audio file of
size N parses as `start=0, end=100`: the response is a 206 with
`Content-Range: bytes 0-100/N`, serving bytes 0..100 — not a suffix request
for the last 100 bytes. -/
theorem C3_empty_left_bound (fs : List Char → Option (List Nat))
    (fb : Request → BaseResponse) (p : List Char) (content : List Nat)
    (haudio : isAudioPath p = true)
    (hfs : fs (pyLstrip p) = some content) :
    ∃ r, do_GET fs fb ⟨p, some "bytes=-100".toList⟩ = r ∧
      r.status = 206 ∧
      parseRangeHeader "bytes=-100".toList content.length
        = Except.ok (0, 100) ∧
      ("Content-Range".toList,
        "bytes 0-100/".toList ++ natRepr content.length) ∈ r.headers ∧
      r.body = content.take 101 := by
  have hok : parseRangeHeader "bytes=-100".toList content.length
      = Except.ok (0, 100) := rfl
  refine ⟨_, do_GET_range_ok fs fb p _ content 0 100 haudio hfs
    (by decide) hok, rfl, hok, ?_, ?_⟩
  · exact mem_end_headers _ _ _
      (List.mem_cons_of_mem _ (List.mem_cons_of_mem _ (List.mem_cons_self _ _)))
  · show pyRead ((100 : Int) - 0 + 1) (content.drop ((0 : Int)).toNat)
      = content.take 101
    unfold pyRead
    rw [if_neg (by omega)]
    rfl

/-- Witness for C3 at `a.mp3` (ten bytes). -/
theorem C3_empty_left_bound_witness :
    ∃ r, do_GET sampleFs noFallback
        ⟨"a.mp3".toList, some "bytes=-100".toList⟩ = r ∧
      r.status = 206 ∧
      parseRangeHeader "bytes=-100".toList
        (List.replicate 10 (0 : Nat)).length = Except.ok (0, 100) ∧
      ("Content-Range".toList,
        "bytes 0-100/".toList ++ natRepr (List.replicate 10 (0 : Nat)).length)
        ∈ r.headers ∧
      r.body = (List.replicate 10 (0 : Nat)).take 101 :=
  C3_empty_left_bound sampleFs noFallback "a.mp3".toList
    (List.replicate 10 0) (by decide) (by decide)

/-- C4: for every existing audio file, a GET with no Range header yields
status 200, a body equal to the full file content, `Content-Length` equal
to its byte size, and an `Accept-Ranges: bytes` header. -/
theorem C4_no_range_full_file (fs : List Char → Option (List Nat))
    (fb : Request → BaseResponse) (p : List Char) (content : List Nat)
    (haudio : isAudioPath p = true)
    (hfs : fs (pyLstrip p) = some content) :
    ∃ r, do_GET fs fb ⟨p, none⟩ = r ∧
      r.status = 200 ∧
      r.body = content ∧
      ("Content-Length".toList, natRepr content.length) ∈ r.headers ∧
      ("Accept-Ranges".toList, "bytes".toList) ∈ r.headers := by
  refine ⟨_, do_GET_no_range fs fb p content haudio hfs, rfl, rfl, ?_, ?_⟩
  · exact mem_end_headers _ _ _
      (List.mem_cons_of_mem _ (List.mem_cons_self _ _))
  · exact mem_end_headers _ _ _
      (List.mem_cons_of_mem _ (List.mem_cons_of_mem _ (List.mem_cons_self _ _)))

/-- Witness for C4 at `a.mp3` (ten bytes). -/
theorem C4_no_range_full_file_witness :
    ∃ r, do_GET sampleFs noFallback ⟨"a.mp3".toList, none⟩ = r ∧
      r.status = 200 ∧
      r.body = List.replicate 10 0 ∧
      ("Content-Length".toList, natRepr (List.replicate 10 (0 : Nat)).length)
        ∈ r.headers ∧
      ("Accept-Ranges".toList, "bytes".toList) ∈ r.headers :=
  C4_no_range_full_file sampleFs noFallback "a.mp3".toList
    (List.replicate 10 0) (by decide) (by decide)

/-- C5: for every audio-extension path whose resolved file is absent, the
handler answers 404 (the `send_error` response, whose content does not
depend on the filesystem), whatever the Range header is. -/
theorem C5_missing_file_404 (fs : List Char → Option (List Nat))
    (fb : Request → BaseResponse) (p : List Char) (rng : Option (List Char))
    (haudio : isAudioPath p = true)
    (hfs : fs (pyLstrip p) = none) :
    do_GET fs fb ⟨p, rng⟩ = send_error p 404 "Not Found".toList ∧
    (do_GET fs fb ⟨p, rng⟩).status = 404 := by
  have h := do_GET_not_found fs fb p rng haudio hfs
  exact ⟨h, by rw [h]; rfl⟩

/-- Witness for C5: `b.mp3` is absent from `sampleFs`; a Range header is
present and is irrelevant. -/
theorem C5_missing_file_404_witness :
    (do_GET sampleFs noFallback ⟨"b.mp3".toList, some "bytes=0-1".toList⟩
        = send_error "b.mp3".toList 404 "Not Found".toList) ∧
    (do_GET sampleFs noFallback
        ⟨"b.mp3".toList, some "bytes=0-1".toList⟩).status = 404 :=
  C5_missing_file_404 sampleFs noFallback "b.mp3".toList
    (some "bytes=0-1".toList) (by decide) (by decide)

/-- C6: when the file exists and the Range header's parsing raises (a
non-numeric bound, or a missing `-`), the failure is surfaced as the
single HTTP 500 response carrying the failure text — no other status. -/
theorem C6_parse_failure_500 (fs : List Char → Option (List Nat))
    (fb : Request → BaseResponse) (p h m : List Char) (content : List Nat)
    (haudio : isAudioPath p = true)
    (hfs : fs (pyLstrip p) = some content)
    (herr : parseRangeHeader h content.length = Except.error m) :
    do_GET fs fb ⟨p, some h⟩ = send_error p 500 m ∧
    (do_GET fs fb ⟨p, some h⟩).status = 500 ∧
    (do_GET fs fb ⟨p, some h⟩).reason = m := by
  have hne : h ≠ [] := by
    rintro rfl
    rw [parseRangeHeader_no_bytes [] content.length rfl] at herr
    cases herr
  have hx := do_GET_parse_error fs fb p h m content haudio hfs hne herr
  exact ⟨hx, by rw [hx]; rfl, by rw [hx]; rfl⟩

/-- Witness for C6: `Range: bytes=abc-` makes `int('abc')` raise; the
response is a 500 carrying the `ValueError` text. -/
theorem C6_parse_failure_500_witness :
    (do_GET sampleFs noFallback ⟨"a.mp3".toList, some "bytes=abc-".toList⟩
        = send_error "a.mp3".toList 500 (intErrMsg "abc".toList)) ∧
    (do_GET sampleFs noFallback
        ⟨"a.mp3".toList, some "bytes=abc-".toList⟩).status = 500 ∧
    (do_GET sampleFs noFallback
        ⟨"a.mp3".toList, some "bytes=abc-".toList⟩).reason
      = intErrMsg "abc".toList :=
  C6_parse_failure_500 sampleFs noFallback "a.mp3".toList "bytes=abc-".toList
    (intErrMsg "abc".toList) (List.replicate 10 0) (by decide) (by decide) rfl

/-- C7: the overridden `end_headers` attaches the three CORS headers to any
header list it flushes, whatever the path; consequently every response the
handler produces — including 404/500 error responses and responses of the
delegated generic file server, all of which flush through `end_headers` —
carries `Access-Control-Allow-Origin: *`,
`Access-Control-Allow-Methods: GET, OPTIONS` and
`Access-Control-Allow-Headers: *`. -/
theorem C7_cors_on_every_response :
    (∀ (p : List Char) (hs : List (List Char × List Char)),
      ("Access-Control-Allow-Origin".toList, "*".toList) ∈ end_headers p hs ∧
      ("Access-Control-Allow-Methods".toList, "GET, OPTIONS".toList)
        ∈ end_headers p hs ∧
      ("Access-Control-Allow-Headers".toList, "*".toList)
        ∈ end_headers p hs) ∧
    (∀ (fs : List Char → Option (List Nat)) (fb : Request → BaseResponse)
      (req : Request),
      ("Access-Control-Allow-Origin".toList, "*".toList)
        ∈ (do_GET fs fb req).headers ∧
      ("Access-Control-Allow-Methods".toList, "GET, OPTIONS".toList)
        ∈ (do_GET fs fb req).headers ∧
      ("Access-Control-Allow-Headers".toList, "*".toList)
        ∈ (do_GET fs fb req).headers) := by
  refine ⟨cors_mem_end_headers, ?_⟩
  intro fs fb req
  obtain ⟨hs, hhs⟩ := do_GET_headers_shape fs fb req
  rw [hhs]
  exact cors_mem_end_headers req.path hs

/-- C8 (amended): when a Range header is present with a NON-EMPTY value that
does not contain `bytes=`, the request is neither rejected nor an error:
the defaults `start=0, end=file_size-1` apply and the whole file is served
as a 206 with `Content-Range: bytes 0-(file_size-1)/file_size`.  A present
but EMPTY Range value, however, is falsy in `if range_header:` and takes
the 200 full-file branch — see the counterexample. -/
theorem C8_no_bytes_marker_defaults (fs : List Char → Option (List Nat))
    (fb : Request → BaseResponse) (p h : List Char) (content : List Nat)
    (haudio : isAudioPath p = true)
    (hfs : fs (pyLstrip p) = some content)
    (hne : h ≠ [])
    (hnb : pyIn "bytes=".toList h = false) :
    ∃ r, do_GET fs fb ⟨p, some h⟩ = r ∧
      r.status = 206 ∧
      r.body = content ∧
      ("Content-Range".toList,
        "bytes ".toList ++ intRepr 0 ++ "-".toList
          ++ intRepr ((content.length : Int) - 1)
          ++ "/".toList ++ natRepr content.length) ∈ r.headers := by
  have hok := parseRangeHeader_no_bytes h content.length hnb
  refine ⟨_, do_GET_range_ok fs fb p h content 0 ((content.length : Int) - 1)
    haudio hfs hne hok, rfl, ?_, ?_⟩
  · show pyRead ((content.length : Int) - 1 - 0 + 1)
        (content.drop ((0 : Int)).toNat) = content
    rw [show ((content.length : Int) - 1 - 0 + 1) = (content.length : Int)
      by ring]
    unfold pyRead
    rw [if_neg (by omega), Int.toNat_natCast]
    simp
  · exact mem_end_headers _ _ _
      (List.mem_cons_of_mem _ (List.mem_cons_of_mem _ (List.mem_cons_self _ _)))

/-- Witness for C8 (amended): `Range: x` on the ten-byte `a.mp3`. -/
theorem C8_no_bytes_marker_defaults_witness :
    ∃ r, do_GET sampleFs noFallback ⟨"a.mp3".toList, some "x".toList⟩ = r ∧
      r.status = 206 ∧
      r.body = List.replicate 10 0 ∧
      ("Content-Range".toList,
        "bytes ".toList ++ intRepr 0 ++ "-".toList
          ++ intRepr (((List.replicate 10 (0 : Nat)).length : Int) - 1)
          ++ "/".toList ++ natRepr (List.replicate 10 (0 : Nat)).length)
        ∈ r.headers :=
  C8_no_bytes_marker_defaults sampleFs noFallback "a.mp3".toList "x".toList
    (List.replicate 10 0) (by decide) (by decide) (by decide) rfl

/-- C8 fails as stated at a present-but-empty Range value: `some ""` is a
present header lacking `bytes=`, yet the handler answers 200 (the
full-file branch), not 206 with default bounds. -/
theorem C8_counterexample :
    pyIn "bytes=".toList [] = false ∧
    (do_GET sampleFs noFallback ⟨"a.mp3".toList, some []⟩).status = 200 ∧
    (do_GET sampleFs noFallback ⟨"a.mp3".toList, some []⟩).status ≠ 206 :=
  ⟨rfl, by decide, by decide⟩

/-- C9: a range that parses with `end ≥ file_size` still gets the declared
`Content-Length = end - start + 1`, while the body actually written is only
the bytes from `start` to end of file — `file_size - start` bytes,
truncated at zero — so the body can be shorter than the declared length. -/
theorem C9_overlong_range_truncated (fs : List Char → Option (List Nat))
    (fb : Request → BaseResponse) (p h : List Char) (content : List Nat)
    (s e : Int)
    (haudio : isAudioPath p = true)
    (hfs : fs (pyLstrip p) = some content)
    (hne : h ≠ [])
    (hok : parseRangeHeader h content.length = Except.ok (s, e))
    (hbig : (content.length : Int) ≤ e) :
    ∃ r, do_GET fs fb ⟨p, some h⟩ = r ∧
      r.status = 206 ∧
      ("Content-Length".toList, intRepr (e - s + 1)) ∈ r.headers ∧
      r.body = content.drop s.toNat ∧
      r.body.length = content.length - s.toNat := by
  have hs0 := parseRangeHeader_ok_start_nonneg h content.length s e hok
  have hbody : pyRead (e - s + 1) (content.drop s.toNat)
      = content.drop s.toNat := by
    unfold pyRead
    split
    · rfl
    · apply List.take_of_length_le
      simp only [List.length_drop]
      omega
  refine ⟨_, do_GET_range_ok fs fb p h content s e haudio hfs hne hok,
    rfl, ?_, hbody, ?_⟩
  · exact mem_end_headers _ _ _
      (List.mem_cons_of_mem _ (List.mem_cons_self _ _))
  · show (pyRead (e - s + 1) (content.drop s.toNat)).length
      = content.length - s.toNat
    rw [hbody]
    simp [List.length_drop]

/-- Witness for C9: `Range: bytes=5-100` on the ten-byte `a.mp3` declares
Content-Length 96 but writes only 5 bytes. -/
theorem C9_overlong_range_truncated_witness :
    ∃ r, do_GET sampleFs noFallback
        ⟨"a.mp3".toList, some "bytes=5-100".toList⟩ = r ∧
      r.status = 206 ∧
      ("Content-Length".toList, intRepr ((100 : Int) - 5 + 1)) ∈ r.headers ∧
      r.body = (List.replicate 10 0).drop ((5 : Int)).toNat ∧
      r.body.length
        = (List.replicate 10 (0 : Nat)).length - ((5 : Int)).toNat :=
  C9_overlong_range_truncated sampleFs noFallback "a.mp3".toList
    "bytes=5-100".toList (List.replicate 10 0) 5 100
    (by decide) (by decide) (by decide) rfl (by decide)

/-- C10: the handler consults the filesystem only at the relative path
obtained by removing every leading `'/'` from the request path — two
filesystems agreeing there get identical responses — and that stripping
performs no `'..'` sanitization: `/../x.mp3` resolves to `../x.mp3`,
a path outside the server's root directory (and still an audio path). -/
theorem C10_lstrip_resolution :
    (∀ (fs1 fs2 : List Char → Option (List Nat))
        (fb : Request → BaseResponse) (req : Request),
      fs1 (pyLstrip req.path) = fs2 (pyLstrip req.path) →
      do_GET fs1 fb req = do_GET fs2 fb req) ∧
    pyLstrip "/../x.mp3".toList = "../x.mp3".toList ∧
    isAudioPath "/../x.mp3".toList = true := by
  refine ⟨?_, by decide, by decide⟩
  intro fs1 fs2 fb req hagree
  unfold do_GET
  dsimp only
  rw [hagree]

/-- Witness for C10: `sampleFs` and `sampleFsB` differ away from `a.mp3`
but agree at it, so `/a.mp3` gets the same response from both. -/
theorem C10_lstrip_resolution_witness :
    do_GET sampleFs noFallback ⟨"/a.mp3".toList, none⟩
      = do_GET sampleFsB noFallback ⟨"/a.mp3".toList, none⟩ :=
  C10_lstrip_resolution.1 sampleFs sampleFsB noFallback
    ⟨"/a.mp3".toList, none⟩ (by decide)

end Server
